import Mathlib

/-!
# Verification of the recur-scan feature-extraction engine

This file is a shallow embedding, in Lean 4, of the analyzers of
`src/recur_scan/features.py`, together with theorems settling the claims
about them.

Modelling conventions:
* `amount` fields (Python floats holding decimal amounts) are embedded as `ℚ`,
  i.e. the analyzers are modelled in exact (real-number) arithmetic.
* calendar dates are embedded as a `Date` record (year, month, day); the
  whole-day difference of two Python `date` values is the difference of their
  civil day numbers `Date.toDays` (standard Gregorian days-from-civil
  algorithm; all quantities are non-negative for the years used, so truncated,
  floored and Euclidean division agree).
* Python `statistics.stdev` is `Real.sqrt` of the exact sample variance, so
  functions returning a standard deviation land in `ℝ`.
* a Python function that can raise `ZeroDivisionError` on some input is
  embedded with result type `Option _`; `none` is the raised exception.
* `detect_subscription_pattern` sorts its argument list **in place**
  (`all_transactions.sort(...)`), so it is embedded state-passing style: it
  returns the caller's list as it is after the call, paired with the computed
  features.
-/

/-- A calendar date, as carried by a transaction (Python `datetime.date`, or
an ISO `YYYY-MM-DD` string parsed by `_parse_date`). -/
structure Date where
  year : ℤ
  month : ℤ
  day : ℤ
deriving DecidableEq

/-- Civil day number of a date (days since 1970-01-01, Hinnant's
`days_from_civil`).  Python's `(d1 - d2).days` is `d1.toDays - d2.toDays`,
and Python's `date` order is the order of day numbers. -/
def Date.toDays (dt : Date) : ℤ :=
  let y := if dt.month ≤ 2 then dt.year - 1 else dt.year
  let era := (if 0 ≤ y then y else y - 399) / 400
  let yoe := y - era * 400
  let doy := (153 * (dt.month + (if 2 < dt.month then -3 else 9)) + 2) / 5 + dt.day - 1
  let doe := yoe * 365 + yoe / 4 - yoe / 100 + doy
  era * 146097 + doe - 719468

/-- Python `date.weekday()` (Monday = 0): 1970-01-01 was a Thursday. -/
def Date.weekday (dt : Date) : ℤ :=
  (dt.toDays + 3) % 7

/-- The externally-defined transaction record
(`recur_scan.transactions.Transaction`). -/
structure Transaction where
  id : ℤ
  user_id : String
  name : String
  amount : ℚ
  date : Date
deriving DecidableEq

/-- Python `sorted(transactions, key=lambda t: t.date)` / `list.sort(key=...)`:
stable ascending sort by date (Python sorts are stable; Mathlib's
`insertionSort` with `≤` on the key is stable as well). -/
def sortByDate (transactions : List Transaction) : List Transaction :=
  transactions.insertionSort (fun a b => a.date.toDays ≤ b.date.toDays)

/-- Consecutive differences of a list of day numbers: the day gaps
`[(dates[i] - dates[i-1]).days for i in range(1, len(dates))]`. -/
def diffs : List ℤ → List ℤ
  | [] => []
  | [_] => []
  | a :: b :: rest => (b - a) :: diffs (b :: rest)

/-- Python `statistics.mean` on rationals (junk value `0` on `[]`, where
Python raises; every use below is guarded by the callers). -/
def meanQ (l : List ℚ) : ℚ :=
  l.sum / (l.length : ℚ)

/-- Python `statistics.median`: middle element of the sorted list, or the
average of the two middle elements (junk value `0` on `[]`, where Python
raises; every use below is guarded by the callers). -/
def medianQ (l : List ℚ) : ℚ :=
  let s := l.insertionSort (fun a b => a ≤ b)
  if l.length = 0 then 0
  else if l.length % 2 = 1 then s.getD (l.length / 2) 0
  else (s.getD (l.length / 2 - 1) 0 + s.getD (l.length / 2) 0) / 2

/-- Exact sample variance (denominator `n - 1`), the square of
`statistics.stdev` (junk value for `n < 2`, where Python raises; every use
below is guarded by the callers). -/
def sampleVariance (l : List ℚ) : ℚ :=
  ((l.map (fun x => (x - meanQ l) ^ 2)).sum) / ((l.length : ℚ) - 1)

/-- Python `statistics.stdev`: square root of the sample variance. -/
noncomputable def stdevR (l : List ℚ) : ℝ :=
  Real.sqrt ((sampleVariance l : ℚ) : ℝ)

lemma diffs_length : ∀ l : List ℤ, (diffs l).length = l.length - 1
  | [] => rfl
  | [_] => rfl
  | a :: b :: rest => by
    simp only [diffs, List.length_cons]
    rw [diffs_length (b :: rest)]
    simp

lemma sortByDate_length (l : List Transaction) : (sortByDate l).length = l.length :=
  List.length_insertionSort _ l

lemma sampleVariance_nonneg {l : List ℚ} (h : 2 ≤ l.length) : 0 ≤ sampleVariance l := by
  apply div_nonneg
  · apply List.sum_nonneg
    intro x hx
    obtain ⟨y, _, rfl⟩ := List.mem_map.1 hx
    exact sq_nonneg _
  · have h2 : (2 : ℚ) ≤ (l.length : ℚ) := by exact_mod_cast h
    linarith

lemma stdevR_eq_zero_iff {l : List ℚ} (h : 2 ≤ l.length) :
    stdevR l = 0 ↔ sampleVariance l = 0 := by
  rw [stdevR, Real.sqrt_eq_zero']
  constructor
  · intro hle
    have h0 : 0 ≤ sampleVariance l := sampleVariance_nonneg h
    have : ((sampleVariance l : ℚ) : ℝ) = 0 := le_antisymm hle (by exact_mod_cast h0)
    exact_mod_cast this
  · intro h0
    rw [h0]
    simp

/-- Function `_get_day`: the day-of-month of a transaction date (the Python code
splits the `YYYY-MM-DD` string and takes the third component). -/
def getDayOfMonth (d : Date) : ℤ :=
  d.day

/-- Function `get_n_transactions_same_day`: transactions whose day of month differs
from the target's by at most `n_days_off`. -/
def get_n_transactions_same_day (transaction : Transaction)
    (all_transactions : List Transaction) (n_days_off : ℤ) : ℕ :=
  (all_transactions.filter
    (fun t => decide (|getDayOfMonth t.date - getDayOfMonth transaction.date| ≤ n_days_off))).length

/-- Function `get_pct_transactions_same_day`: the same-day count divided by
`len(all_transactions)` with **no** emptiness guard; on an empty history the
Python division raises `ZeroDivisionError`, embedded as `none`. -/
def get_pct_transactions_same_day (transaction : Transaction)
    (all_transactions : List Transaction) (n_days_off : ℤ) : Option ℚ :=
  if all_transactions.length = 0 then none
  else some ((get_n_transactions_same_day transaction all_transactions n_days_off : ℚ) /
    (all_transactions.length : ℚ))

/-- Result record of `one_time_features` (both Python values are the ints
0 or 1). -/
structure OneTimeFeatures where
  varying_amounts : ℕ
  irregular_dates : ℕ
deriving DecidableEq

open Classical in
/-- Function `one_time_features`: the `varying_amounts` field divides the number of
distinct amounts by `len(all_transactions)` with **no** emptiness guard
(only the `stdev` call is wrapped in try/except); on an empty history the
division raises `ZeroDivisionError`, embedded as `none`. -/
noncomputable def one_time_features (all_transactions : List Transaction) : Option OneTimeFeatures :=
  let months : List ℚ := all_transactions.map (fun t => (t.date.month : ℚ))
  let date_std : ℝ := if 2 ≤ months.length then stdevR months else 0
  if all_transactions.length = 0 then none
  else
    some
      { varying_amounts :=
          if (7 / 10 : ℚ) <
              ((all_transactions.map (fun t => t.amount)).dedup.length : ℚ) /
                (all_transactions.length : ℚ)
            then 1 else 0,
        irregular_dates := if (3 / 2 : ℝ) < date_std then 1 else 0 }

/-- Python `x % y` on reals for `y > 0` (`math.fmod`-free float modulus):
`x - y * floor(x / y)`. -/
def qfmod (x y : ℚ) : ℚ :=
  x - y * ⌊x / y⌋

/-- Function `get_ends_in_99`: `(transaction.amount * 100) % 100 == 99` — note the
source applies **no** rounding to `amount * 100`. -/
def get_ends_in_99 (transaction : Transaction) : Bool :=
  decide (qfmod (transaction.amount * 100) 100 = 99)

/-- Python's built-in `round` to an integer (banker's rounding: ties go to
the even integer). -/
def pyRound (q : ℚ) : ℤ :=
  if q - ⌊q⌋ < 1 / 2 then ⌊q⌋
  else if 1 / 2 < q - ⌊q⌋ then ⌊q⌋ + 1
  else if ⌊q⌋ % 2 = 0 then ⌊q⌋ else ⌊q⌋ + 1

/-- Function `amount_similarity(transaction, transactions, tolerance=0.05)`: ratio of
listed amounts inside `[amount*(1-tolerance), amount*(1+tolerance)]`. -/
def amount_similarity (transaction : Transaction) (transactions : List Transaction)
    (tolerance : ℚ) : ℚ :=
  if transactions.length = 0 then 0
  else
    ((transactions.countP (fun t =>
        decide (transaction.amount * (1 - tolerance) ≤ t.amount ∧
          t.amount ≤ transaction.amount * (1 + tolerance)))) : ℚ) /
      (transactions.length : ℚ)

/-- Function `get_same_amount_ratio(transaction, all_transactions, tolerance=0.05)`:
the same computation as `amount_similarity`, duplicated in the source. -/
def get_same_amount_ratio (transaction : Transaction) (all_transactions : List Transaction)
    (tolerance : ℚ) : ℚ :=
  if all_transactions.length = 0 then 0
  else
    ((all_transactions.countP (fun t =>
        decide (transaction.amount * (1 - tolerance) ≤ t.amount ∧
          t.amount ≤ transaction.amount * (1 + tolerance)))) : ℚ) /
      (all_transactions.length : ℚ)

/-- Function `get_n_transactions_days_apart`: count of history transactions whose
absolute day distance from the target is at least
`n_days_apart - n_days_off` and whose remainder modulo `n_days_apart` is
within `n_days_off` of 0 or of `n_days_apart` (Python `%` on a positive
modulus is `Int.emod`). -/
def get_n_transactions_days_apart (transaction : Transaction)
    (all_transactions : List Transaction) (n_days_apart n_days_off : ℤ) : ℕ :=
  all_transactions.countP (fun t =>
    !decide (|t.date.toDays - transaction.date.toDays| < n_days_apart - n_days_off) &&
      (decide (|t.date.toDays - transaction.date.toDays| % n_days_apart ≤ n_days_off) ||
        decide (n_days_apart - n_days_off ≤ |t.date.toDays - transaction.date.toDays| % n_days_apart)))

/-- Python `max(transactions, key=lambda t: t.date)` on a non-empty list:
first element with the maximal date wins ties. -/
def maxByDate (t : Transaction) (ts : List Transaction) : Transaction :=
  ts.foldl (fun best u => if best.date.toDays < u.date.toDays then u else best) t

/-- Function `get_days_since_last_transaction`: days since the latest strictly-earlier
same-name transaction, `-1` if there is none. -/
def get_days_since_last_transaction (transaction : Transaction)
    (all_transactions : List Transaction) : ℤ :=
  match all_transactions.filter (fun t =>
      decide (t.name = transaction.name) && decide (t.date.toDays < transaction.date.toDays)) with
  | [] => -1
  | t :: ts => transaction.date.toDays - (maxByDate t ts).date.toDays

/-- Regex word character (Python `\w` over ASCII input): letters, digits,
underscore. -/
def wordCharB (c : Char) : Bool :=
  c.isAlphanum || c == '_'

/-- Python `\s` whitespace over ASCII input. -/
def pySpace (c : Char) : Bool :=
  c == ' ' || c == '\t' || c == '\n' || c == '\r' || c == '\x0b' || c == '\x0c'

/-- Regex `\b` at position `p` of `text`: exactly one of the characters
around the position is a word character (out of range counts as non-word). -/
def boundaryAt (text : List Char) (p : ℕ) : Bool :=
  (match p with
   | 0 => false
   | q + 1 => wordCharB (text.getD q ' ')) != wordCharB (text.getD p ' ')

/-- Case-insensitive literal match of `kw` inside `text` at offset `i`
(`re.IGNORECASE` on ASCII is case folding). -/
def matchesAt (text kw : List Char) (i : ℕ) : Bool :=
  ((text.drop i).take kw.length).map Char.toLower == kw.map Char.toLower

/-- One alternative of `\b(kw1|kw2|...)\b` matching at offset `i`. -/
def wholeWordAt (text kw : List Char) (i : ℕ) : Bool :=
  matchesAt text kw i && boundaryAt text i && boundaryAt text (i + kw.length)

/-- Python `pattern.search(text)` for the compiled pattern
`\b(kw1|kw2|...)\b` with `re.IGNORECASE`: some keyword occurs somewhere in
`text` with word boundaries on both sides. -/
def wordSearch (keywords : List String) (text : List Char) : Bool :=
  keywords.any (fun kw =>
    (List.range (text.length + 1)).any (fun i => wholeWordAt text kw.toList i))

/-- The fixed `KNOWN_RECURRING_COMPANIES` table, in source order. -/
def knownRecurringCompanies : List String :=
  ["netflix", "spotify", "amazon prime", "hulu", "disney+", "youtube", "adobe",
   "microsoft", "verizon", "at&t", "t-mobile", "comcast", "spectrum", "onlyfans",
   "albert", "ipsy", "experian", "walmart+", "sirius xm", "pandora", "sezzle",
   "apple", "amazon+", "BET+", "HBO", "Credit Genie", "amazon kids+", "paramount+",
   "afterpay", "cricut"]

/-- The fixed `UTILITY_KEYWORDS` table, in source order. -/
def utilityKeywords : List String :=
  ["energy", "power", "electric", "utility", "gas", "water", "sewer", "trash",
   "internet", "phone", "cable", "wifi", "broadband", "telecom", "member",
   "fitness", "gym", "insurance", "rent", "hoa", "subscription", "mobile",
   "pay", "light", "tv"]

/-- Function `clean_company_name`: drop every character that is not an ASCII
letter/digit/whitespace (`re.sub(r"[^a-zA-Z0-9\s]", "", name)`), strip
leading/trailing whitespace, lowercase. -/
def clean_company_name (name : List Char) : List Char :=
  ((((name.filter (fun c => c.isAlphanum || pySpace c)).dropWhile pySpace).reverse.dropWhile
      pySpace).reverse).map Char.toLower

/-- Result record of `detect_recurring_company` (the two flags are the
Python ints 0 or 1). -/
structure CompanyFeatures where
  is_recurring_company : ℕ
  is_utility_company : ℕ
  recurring_score : ℚ
deriving DecidableEq

/-- Function `detect_recurring_company`: whole-word search against the recurring
table, then the utility table, then the case-sensitive substring loop
(`for keyword in KNOWN_RECURRING_COMPANIES: if keyword in cleaned_name:
score = max(score, 0.7)`). -/
def detect_recurring_company (company_name : String) : CompanyFeatures :=
  let cleaned := clean_company_name company_name.toList
  let isRec := wordSearch knownRecurringCompanies cleaned
  let isUtil := wordSearch utilityKeywords cleaned
  { is_recurring_company := if isRec then 1 else 0,
    is_utility_company := if isUtil then 1 else 0,
    recurring_score :=
      if isRec then 1
      else if isUtil then 4 / 5
      else knownRecurringCompanies.foldl
        (fun s kw => if kw.toList <:+: cleaned then max s (7 / 10) else s) 0 }

/-- Result record of `detect_subscription_pattern`. -/
structure SubscriptionFeatures where
  subscription_score : ℚ
  interval_consistency : ℚ
  amount_consistency : ℚ
  detected_cycle : ℚ
deriving DecidableEq

/-- Day gaps between consecutive transactions of the date-sorted history. -/
def gapsOf (transactions : List Transaction) : List ℤ :=
  diffs ((sortByDate transactions).map (fun t => t.date.toDays))

/-- The sort key of one candidate cycle in `detect_subscription_pattern`:
`abs(median_interval - c)` when the median lies in `[c - 3, c + 3]`, else
`float("inf")` (embedded as `⊤`). -/
def cycleKey (median_interval c : ℚ) : WithTop ℚ :=
  if c - 3 ≤ median_interval ∧ median_interval ≤ c + 3 then (|median_interval - c| : ℚ) else ⊤

/-- Python `min(base_cycles, key=...)`: Python `min` scans left to right and keeps
the first element whose key is strictly smaller than the best so far, so
with `base_cycles = [7, 14, 30, 90, 365]` the fold starts at `7`. -/
def detectedCycle (median_interval : ℚ) : ℚ :=
  ([14, 30, 90, 365] : List ℚ).foldl
    (fun best c => if cycleKey median_interval c < cycleKey median_interval best then c else best) 7

/-- The feature record computed by `detect_subscription_pattern` on a
history of at least 2 transactions (after the in-place sort). -/
def subscriptionCore (transactions : List Transaction) : SubscriptionFeatures :=
  let intervals := gapsOf transactions
  let amounts := (sortByDate transactions).map (fun t => t.amount)
  let median_interval : ℚ := medianQ (intervals.map (fun g => (g : ℚ)))
  let cyc := detectedCycle median_interval
  let interval_consistency : ℚ :=
    ((intervals.countP (fun g =>
        decide (|(g : ℚ) - median_interval| ≤ 15 / 100 * cyc))) : ℚ) / (intervals.length : ℚ)
  let median_amount := medianQ amounts
  let amount_consistency : ℚ :=
    ((amounts.countP (fun a =>
        decide (|a - median_amount| ≤ 15 / 100 * median_amount))) : ℚ) / (amounts.length : ℚ)
  { subscription_score := (interval_consistency + amount_consistency) / 2,
    interval_consistency := interval_consistency,
    amount_consistency := amount_consistency,
    detected_cycle := cyc }

/-- Function `detect_subscription_pattern`, state-passing: the first component is the
caller's list after the call.  The source sorts the caller's list **in
place** (`all_transactions.sort(key=lambda t: t.date)`) before computing
anything, except when it returns early on histories of fewer than 2
transactions.  The `detected_cycle` output is never `inf` (the `min` result
is always drawn from `base_cycles`), so the final
`... if detected_cycle != float("inf") else 0.0` always takes the first
branch, embedded directly. -/
def detect_subscription_pattern (all_transactions : List Transaction) :
    List Transaction × SubscriptionFeatures :=
  if all_transactions.length < 2 then (all_transactions, ⟨0, 0, 0, 0⟩)
  else if (gapsOf all_transactions).length = 0 then (sortByDate all_transactions, ⟨0, 0, 0, 0⟩)
  else (sortByDate all_transactions, subscriptionCore all_transactions)

/-- Result record of `get_transaction_intervals` (all Python floats; the
standard deviation is the only genuinely irrational one). -/
structure IntervalFeatures where
  avg_days_between_transactions : ℚ
  std_dev_days_between_transactions : ℝ
  monthly_recurrence : ℚ
  same_weekday_ratio : ℚ
  same_amount : ℚ

/-- Function `get_transaction_intervals`: all-zero defaults for histories of fewer
than 2 transactions, otherwise gap statistics of the date-sorted history. -/
noncomputable def get_transaction_intervals (transactions : List Transaction) : IntervalFeatures :=
  if transactions.length < 2 then ⟨0, 0, 0, 0, 0⟩
  else
    let dates := (transactions.map (fun t => t.date.toDays)).insertionSort (fun a b => a ≤ b)
    let amounts := transactions.map (fun t => t.amount)
    let intervals := diffs dates
    let avg_days := meanQ (intervals.map (fun g => (g : ℚ)))
    let std_dev_days : ℝ :=
      if 1 < intervals.length then stdevR (intervals.map (fun g => (g : ℚ))) else 0
    let monthly_recurrence : ℚ :=
      if intervals.length ≠ 0 then
        ((intervals.countP (fun g => decide (23 ≤ g ∧ g ≤ 37))) : ℚ) / (intervals.length : ℚ)
      else 0
    let weekdays := dates.map (fun d => (d + 3) % 7)
    let most_common_count := (weekdays.map (fun w => weekdays.count w)).foldr max 0
    let same_weekday_ratio : ℚ := (most_common_count : ℚ) / (weekdays.length : ℚ)
    let base_amount := if amounts.headI = 0 then 1 else amounts.headI
    let same_amount : ℚ :=
      ((amounts.countP (fun amt => decide (|amt - base_amount| / base_amount ≤ 5 / 100))) : ℚ) /
        (amounts.length : ℚ)
    ⟨avg_days, std_dev_days, monthly_recurrence, same_weekday_ratio, same_amount⟩

open Classical in
/-- Function `amount_stability_score`: `0.0` below 2 amounts, `1.0` when the sample
standard deviation is zero, otherwise `median / stdev` (the try/except
around `stdev` is dead code here because the guard already ensures at least
2 amounts). -/
noncomputable def amount_stability_score (all_transactions : List Transaction) : ℝ :=
  if (all_transactions.map (fun t => t.amount)).length < 2 then 0
  else if stdevR (all_transactions.map (fun t => t.amount)) = 0 then 1
  else ((medianQ (all_transactions.map (fun t => t.amount)) : ℚ) : ℝ) /
    stdevR (all_transactions.map (fun t => t.amount))

/-- A generic concrete transaction used as the target of empty-history
evaluations. -/
def txA : Transaction :=
  ⟨1, "user1", "name1", 100, ⟨2024, 1, 1⟩⟩

/-- Later-dated transaction of the mutation counterexample history. -/
def mutA : Transaction :=
  ⟨1, "user1", "vendor1", 10, ⟨2024, 1, 5⟩⟩

/-- Earlier-dated transaction of the mutation counterexample history. -/
def mutB : Transaction :=
  ⟨2, "user1", "vendor1", 20, ⟨2024, 1, 3⟩⟩

/-- Claim C1: the spec asserts that the division sites in
`get_pct_transactions_same_day` and `one_time_features` are zero-guarded and
that no analyzer invoked by `get_features` can raise.  The code has no such
guards: on the empty history both functions divide by
`len(all_transactions) = 0` (embedded: both return `none`, the raised
`ZeroDivisionError`), and `get_features` invokes both unconditionally. -/
theorem division_sites_unguarded_on_empty_history :
    get_pct_transactions_same_day txA [] 0 = none ∧ one_time_features [] = none := by
  constructor
  · rfl
  · rfl

/-- Claim C2: the spec asserts that no analyzer mutates the caller's history
list.  `detect_subscription_pattern` sorts the caller's list in place: on
the out-of-date-order history `[mutA, mutB]` the caller's list after the
call is `[mutB, mutA]`, not the original `[mutA, mutB]`. -/
theorem subscription_pattern_mutates_caller_list :
    (detect_subscription_pattern [mutA, mutB]).1 = [mutB, mutA] ∧
      ([mutB, mutA] : List Transaction) ≠ [mutA, mutB] := by
  constructor
  · decide
  · decide

/-- Transaction with the non-cent amount 2.994 (299.4 in hundredths). -/
def tx2994 : Transaction :=
  ⟨5, "user1", "name1", 2994 / 1000, ⟨2024, 1, 3⟩⟩

/-- Transaction with amount 2.99. -/
def tx299 : Transaction :=
  ⟨4, "user1", "name1", 299 / 100, ⟨2024, 1, 3⟩⟩

/-- Transaction with amount 100. -/
def tx100 : Transaction :=
  ⟨1, "user1", "name1", 100, ⟨2024, 1, 1⟩⟩

/-- Transaction with amount 100.50. -/
def tx10050 : Transaction :=
  ⟨2, "user1", "name1", 201 / 2, ⟨2024, 1, 1⟩⟩

/-- Transaction with amount 200. -/
def tx200 : Transaction :=
  ⟨3, "user1", "name1", 200, ⟨2024, 1, 2⟩⟩

/-- Claim C3, as stated, is false: it demands
`get_ends_in_99 ↔ round(amount*100) mod 100 = 99`, but the source never
rounds.  At amount 2.994 the rounded formula gives
`round(299.4) mod 100 = 299 mod 100 = 99` while the code compares the
unrounded modulus `99.4` with `99` and returns false. -/
theorem ends_in_99_round_formula_counterexample :
    get_ends_in_99 tx2994 = false ∧ pyRound (tx2994.amount * 100) % 100 = 99 := by
  constructor
  · rw [get_ends_in_99, decide_eq_false_iff_not, qfmod]
    norm_num [tx2994]
  · rw [pyRound]
    norm_num [tx2994]

lemma qfmod_intCast (n : ℤ) : qfmod ((n : ℤ) : ℚ) 100 = ((n % 100 : ℤ) : ℚ) := by
  rw [qfmod]
  have h : (⌊((n : ℤ) : ℚ) / 100⌋ : ℤ) = n / 100 := by
    have h100 : ((100 : ℕ) : ℚ) = (100 : ℚ) := by norm_num
    have := Rat.floor_intCast_div_natCast n 100
    rw [h100] at this
    exact_mod_cast this
  rw [h, Int.emod_def]
  push_cast
  ring

lemma pyRound_intCast (n : ℤ) : pyRound ((n : ℤ) : ℚ) = n := by
  rw [pyRound, Int.floor_intCast]
  norm_num

/-- Claim C3, amended: for every transaction whose amount is an exact whole
number of cents (`amount * 100` is an integer), `get_ends_in_99` is true iff
`round(amount * 100) mod 100 = 99`; and concretely it is true at 2.99 and
false at 100, 100.50 and 200.  (For non-cent amounts the code compares the
unrounded modulus, see the counterexample.) -/
theorem ends_in_99_exact_cents_spec :
    (∀ tx : Transaction, (tx.amount * 100).den = 1 →
        (get_ends_in_99 tx = true ↔ pyRound (tx.amount * 100) % 100 = 99)) ∧
      get_ends_in_99 tx299 = true ∧ get_ends_in_99 tx100 = false ∧
        get_ends_in_99 tx10050 = false ∧ get_ends_in_99 tx200 = false := by
  refine ⟨?_, ?_, ?_, ?_, ?_⟩
  · intro tx hden
    have hx : tx.amount * 100 = (((tx.amount * 100).num : ℤ) : ℚ) :=
      ((Rat.den_eq_one_iff _).1 hden).symm
    rw [get_ends_in_99, decide_eq_true_eq, hx, qfmod_intCast, pyRound_intCast]
    constructor
    · intro h
      exact_mod_cast h
    · intro h
      exact_mod_cast h
  · rw [get_ends_in_99, decide_eq_true_eq, qfmod]
    norm_num [tx299]
  · rw [get_ends_in_99, decide_eq_false_iff_not, qfmod]
    norm_num [tx100]
  · rw [get_ends_in_99, decide_eq_false_iff_not, qfmod]
    norm_num [tx10050]
  · rw [get_ends_in_99, decide_eq_false_iff_not, qfmod]
    norm_num [tx200]

/-- Witness for the amended C3 theorem at the concrete cent amount 2.99. -/
theorem ends_in_99_exact_cents_spec_witness :
    get_ends_in_99 tx299 = true ↔ pyRound (tx299.amount * 100) % 100 = 99 := by
  apply ends_in_99_exact_cents_spec.1 tx299
  have h : tx299.amount * 100 = (299 : ℚ) := by norm_num [tx299]
  rw [h]
  rfl

/-- Claim C4: on a history of size 0 or 1, `get_transaction_intervals`
returns the all-zero default record (average gap, gap standard deviation,
monthly recurrence, most-common-weekday ratio and same-amount ratio all
zero). -/
theorem transaction_intervals_low_data_defaults :
    ∀ ts : List Transaction, ts.length < 2 → get_transaction_intervals ts = ⟨0, 0, 0, 0, 0⟩ := by
  intro ts h
  rw [get_transaction_intervals, if_pos h]

/-- Witness for C4 at the singleton history. -/
theorem transaction_intervals_low_data_defaults_witness :
    get_transaction_intervals [txA] = ⟨0, 0, 0, 0, 0⟩ :=
  transaction_intervals_low_data_defaults [txA] (by simp)

/-- Second transaction with amount 100 for the constant-amount history. -/
def txB : Transaction :=
  ⟨2, "user1", "name1", 100, ⟨2024, 1, 5⟩⟩

/-- Claim C5: `amount_stability_score` is 0 on histories of fewer than
2 transactions, exactly 1 when the sample standard deviation of the amounts
is zero, and `median / stdev` otherwise. -/
theorem amount_stability_score_spec :
    ∀ ts : List Transaction,
      (ts.length < 2 → amount_stability_score ts = 0) ∧
      (2 ≤ ts.length → stdevR (ts.map (fun t => t.amount)) = 0 →
        amount_stability_score ts = 1) ∧
      (2 ≤ ts.length → stdevR (ts.map (fun t => t.amount)) ≠ 0 →
        amount_stability_score ts =
          ((medianQ (ts.map (fun t => t.amount)) : ℚ) : ℝ) /
            stdevR (ts.map (fun t => t.amount))) := by
  intro ts
  have hlen : (ts.map (fun t => t.amount)).length = ts.length := List.length_map _ _
  refine ⟨?_, ?_, ?_⟩
  · intro h
    rw [amount_stability_score, if_pos (by rw [hlen]; exact h)]
  · intro h hstd
    rw [amount_stability_score, if_neg (by rw [hlen]; omega), if_pos hstd]
  · intro h hstd
    rw [amount_stability_score, if_neg (by rw [hlen]; omega), if_neg hstd]

/-- Witness for C5: on two identical amounts the sample standard deviation
is zero and the score is exactly 1. -/
theorem amount_stability_score_spec_witness :
    amount_stability_score [txA, txB] = 1 := by
  apply (amount_stability_score_spec [txA, txB]).2.1 (by simp)
  have hv : sampleVariance ([txA, txB].map (fun t => t.amount)) = 0 := by
    norm_num [txA, txB, sampleVariance, meanQ]
  simp only [stdevR, hv, Rat.cast_zero, Real.sqrt_zero]

/-- Transaction with the negative amount -10. -/
def txNeg : Transaction :=
  ⟨9, "u1", "vendorZ", -10, ⟨2023, 1, 1⟩⟩

/-- Transaction with the positive amount 100. -/
def txPos : Transaction :=
  ⟨8, "u1", "vendorZ", 100, ⟨2023, 1, 1⟩⟩

/-- Claim C6, as stated, is false: for a transaction of negative amount the
tolerance interval `[amount*(1-tol), amount*(1+tol)]` inverts, so raising
the tolerance from 0 to 1 drops both ratios from 1 to 0 on the singleton
history `[txNeg]`, although `0 ≤ 0 ≤ 1`. -/
theorem tolerance_monotonicity_counterexample :
    (0 : ℚ) ≤ 0 ∧ (0 : ℚ) ≤ 1 ∧
      amount_similarity txNeg [txNeg] 1 < amount_similarity txNeg [txNeg] 0 ∧
      get_same_amount_ratio txNeg [txNeg] 1 < get_same_amount_ratio txNeg [txNeg] 0 := by
  refine ⟨le_refl 0, by norm_num, ?_, ?_⟩
  · norm_num [amount_similarity, List.countP_cons, List.countP_nil, txNeg]
  · norm_num [get_same_amount_ratio, List.countP_cons, List.countP_nil, txNeg]

lemma countP_tolerance_mono (tx : Transaction) (ts : List Transaction) {t1 t2 : ℚ}
    (ha : 0 ≤ tx.amount) (h12 : t1 ≤ t2) :
    ts.countP (fun t =>
        decide (tx.amount * (1 - t1) ≤ t.amount ∧ t.amount ≤ tx.amount * (1 + t1))) ≤
      ts.countP (fun t =>
        decide (tx.amount * (1 - t2) ≤ t.amount ∧ t.amount ≤ tx.amount * (1 + t2))) := by
  apply List.countP_mono_left
  intro t ht h
  rw [decide_eq_true_eq] at h ⊢
  constructor
  · calc tx.amount * (1 - t2) ≤ tx.amount * (1 - t1) :=
        mul_le_mul_of_nonneg_left (by linarith) ha
      _ ≤ t.amount := h.1
  · calc t.amount ≤ tx.amount * (1 + t1) := h.2
      _ ≤ tx.amount * (1 + t2) := mul_le_mul_of_nonneg_left (by linarith) ha

/-- Claim C6, amended: for transactions of **non-negative** amount,
increasing the tolerance never decreases `amount_similarity` or
`get_same_amount_ratio`. -/
theorem tolerance_monotonicity_nonneg_amount :
    ∀ (tx : Transaction) (ts : List Transaction) (t1 t2 : ℚ),
      0 ≤ tx.amount → 0 ≤ t1 → t1 ≤ t2 →
      amount_similarity tx ts t1 ≤ amount_similarity tx ts t2 ∧
        get_same_amount_ratio tx ts t1 ≤ get_same_amount_ratio tx ts t2 := by
  intro tx ts t1 t2 ha _ h12
  have key := countP_tolerance_mono tx ts ha h12
  constructor
  · rw [amount_similarity, amount_similarity]
    by_cases h : ts.length = 0
    · rw [if_pos h, if_pos h]
    · rw [if_neg h, if_neg h]
      exact div_le_div_of_nonneg_right (by exact_mod_cast key) (by positivity)
  · rw [get_same_amount_ratio, get_same_amount_ratio]
    by_cases h : ts.length = 0
    · rw [if_pos h, if_pos h]
    · rw [if_neg h, if_neg h]
      exact div_le_div_of_nonneg_right (by exact_mod_cast key) (by positivity)

/-- Witness for the amended C6 theorem at amount 100 and tolerances
0 and 1/20. -/
theorem tolerance_monotonicity_nonneg_amount_witness :
    amount_similarity txPos [txPos] 0 ≤ amount_similarity txPos [txPos] (1 / 20) ∧
      get_same_amount_ratio txPos [txPos] 0 ≤ get_same_amount_ratio txPos [txPos] (1 / 20) :=
  tolerance_monotonicity_nonneg_amount txPos [txPos] 0 (1 / 20)
    (by norm_num [txPos]) (le_refl 0) (by norm_num)

/-- A transaction of the days-apart sample history: amount 2.99, dated
January 2024. -/
def dTx (i d : ℤ) : Transaction :=
  ⟨i, "user1", "name1", 299 / 100, ⟨2024, 1, d⟩⟩

/-- The seven-transaction history of the days-apart example, dated
2024-01-01, -02, -14, -15, -16, -29, -31. -/
def c7sample : List Transaction :=
  [dTx 1 1, dTx 2 2, dTx 3 14, dTx 4 15, dTx 4 16, dTx 4 29, dTx 4 31]

/-- Claim C7: `get_n_transactions_days_apart` counts exactly the history
transactions whose absolute day distance `d` from the target satisfies
`n_days_apart - n_days_off ≤ d` and
`d % n_days_apart ≤ n_days_off ∨ n_days_apart - n_days_off ≤ d % n_days_apart`;
on the seven-transaction January sample with the first transaction as
target it returns 2 for `(14, 0)` and 4 for `(14, 1)`. -/
theorem days_apart_count_spec :
    (∀ (tx : Transaction) (ts : List Transaction) (a off : ℤ), 0 < a →
        get_n_transactions_days_apart tx ts a off =
          ts.countP (fun t =>
            decide (a - off ≤ |t.date.toDays - tx.date.toDays| ∧
              (|t.date.toDays - tx.date.toDays| % a ≤ off ∨
                a - off ≤ |t.date.toDays - tx.date.toDays| % a)))) ∧
      get_n_transactions_days_apart (dTx 1 1) c7sample 14 0 = 2 ∧
      get_n_transactions_days_apart (dTx 1 1) c7sample 14 1 = 4 := by
  refine ⟨?_, by decide, by decide⟩
  intro tx ts a off ha
  rw [get_n_transactions_days_apart]
  apply List.countP_congr
  intro t ht
  simp only [Bool.and_eq_true, Bool.or_eq_true, Bool.not_eq_true', decide_eq_true_eq,
    decide_eq_false_iff_not, not_lt]

/-- Witness for C7 discharging the positivity hypothesis at the sample. -/
theorem days_apart_count_spec_witness :
    get_n_transactions_days_apart (dTx 1 1) c7sample 14 0 =
      c7sample.countP (fun t =>
        decide ((14 : ℤ) - 0 ≤ |t.date.toDays - (dTx 1 1).date.toDays| ∧
          (|t.date.toDays - (dTx 1 1).date.toDays| % 14 ≤ 0 ∨
            (14 : ℤ) - 0 ≤ |t.date.toDays - (dTx 1 1).date.toDays| % 14))) :=
  days_apart_count_spec.1 (dTx 1 1) c7sample 14 0 (by norm_num)

lemma maxByDate_toDays (t : Transaction) (ts : List Transaction) :
    (maxByDate t ts).date.toDays = (ts.map (fun u => u.date.toDays)).foldl max t.date.toDays := by
  induction ts generalizing t with
  | nil => rfl
  | cons u us ih =>
    simp only [maxByDate, List.foldl_cons, List.map_cons] at *
    rw [ih]
    congr 1
    by_cases h : t.date.toDays < u.date.toDays
    · rw [if_pos h, max_eq_right (le_of_lt h)]
    · rw [if_neg h, max_eq_left (not_lt.1 h)]

lemma le_foldl_max : ∀ (l : List ℤ) (a : ℤ), a ≤ l.foldl max a
  | [], a => le_refl a
  | x :: xs, a => le_trans (le_max_left a x) (le_foldl_max xs (max a x))

lemma mem_le_foldl_max : ∀ (l : List ℤ) (a x : ℤ), x ∈ l → x ≤ l.foldl max a
  | y :: ys, a, x, hx => by
    rcases List.mem_cons.1 hx with h | h
    · subst h
      exact le_trans (le_max_right a x) (le_foldl_max ys (max a x))
    · exact mem_le_foldl_max ys (max a y) x h

lemma foldl_max_le_bound {m : ℤ} :
    ∀ (l : List ℤ) (a : ℤ), a ≤ m → (∀ x ∈ l, x ≤ m) → l.foldl max a ≤ m
  | [], _, ha, _ => ha
  | x :: xs, a, ha, hl =>
    foldl_max_le_bound xs (max a x) (max_le ha (hl x (by simp)))
      (fun y hy => hl y (by simp [hy]))

/-- Claim C8: `get_days_since_last_transaction` returns -1 when no history
transaction has the same vendor name and a strictly earlier date, and
otherwise returns the day difference between the transaction's date and the
latest such date (any upper bound of the matching dates that is itself a
matching date). -/
theorem days_since_last_spec :
    ∀ (tx : Transaction) (ts : List Transaction),
      ((ts.filter (fun t =>
          decide (t.name = tx.name) && decide (t.date.toDays < tx.date.toDays))) = [] →
        get_days_since_last_transaction tx ts = -1) ∧
      (∀ m : ℤ,
        m ∈ (ts.filter (fun t =>
            decide (t.name = tx.name) && decide (t.date.toDays < tx.date.toDays))).map
              (fun t => t.date.toDays) →
        (∀ d ∈ (ts.filter (fun t =>
            decide (t.name = tx.name) && decide (t.date.toDays < tx.date.toDays))).map
              (fun t => t.date.toDays), d ≤ m) →
        get_days_since_last_transaction tx ts = tx.date.toDays - m) := by
  intro tx ts
  constructor
  · intro h
    unfold get_days_since_last_transaction
    rw [h]
  · intro m hmem hub
    rcases hfil : ts.filter (fun t =>
        decide (t.name = tx.name) && decide (t.date.toDays < tx.date.toDays)) with _ | ⟨t, rest⟩
    · rw [hfil] at hmem
      simp at hmem
    · rw [hfil] at hmem hub
      unfold get_days_since_last_transaction
      rw [hfil]
      have hmax : (maxByDate t rest).date.toDays = m := by
        rw [maxByDate_toDays]
        apply le_antisymm
        · apply foldl_max_le_bound
          · exact hub t.date.toDays (by simp)
          · intro x hx
            apply hub
            simp only [List.map_cons, List.mem_cons]
            exact Or.inr hx
        · simp only [List.map_cons, List.mem_cons] at hmem
          rcases hmem with h | h
          · rw [h]
            exact le_foldl_max _ _
          · exact mem_le_foldl_max _ _ _ h
      show tx.date.toDays - (maxByDate t rest).date.toDays = tx.date.toDays - m
      rw [hmax]

/-- Transaction Netflix, 2024-01-01. -/
def nfx1 : Transaction :=
  ⟨1, "user1", "Netflix", 50, ⟨2024, 1, 1⟩⟩

/-- Transaction Netflix, 2024-01-10. -/
def nfx2 : Transaction :=
  ⟨2, "user1", "Netflix", 50, ⟨2024, 1, 10⟩⟩

/-- Transaction Netflix, 2024-01-20. -/
def nfx3 : Transaction :=
  ⟨3, "user1", "Netflix", 50, ⟨2024, 1, 20⟩⟩

/-- Witness for C8: ten days since the latest earlier Netflix
transaction. -/
theorem days_since_last_spec_witness :
    get_days_since_last_transaction nfx3 [nfx1, nfx2] = 10 := by
  have h := (days_since_last_spec nfx3 [nfx1, nfx2]).2 (nfx2.date.toDays)
    (by decide) (by decide)
  rw [h]
  decide

lemma foldl_substring_score (cleaned : List Char) :
    ∀ (l : List String) (a : ℚ),
      l.foldl (fun s kw => if kw.toList <:+: cleaned then max s (7 / 10) else s) a =
        if ∃ kw ∈ l, kw.toList <:+: cleaned then max a (7 / 10) else a := by
  intro l
  induction l with
  | nil => intro a; simp
  | cons kw ks ih =>
    intro a
    simp only [List.foldl_cons]
    by_cases h : kw.toList <:+: cleaned
    · rw [if_pos h, ih]
      have hcons : ∃ k ∈ kw :: ks, k.toList <:+: cleaned := ⟨kw, List.mem_cons_self kw ks, h⟩
      rw [if_pos hcons]
      by_cases h2 : ∃ k ∈ ks, k.toList <:+: cleaned
      · rw [if_pos h2, max_assoc, max_self]
      · rw [if_neg h2]
    · rw [if_neg h, ih]
      by_cases h2 : ∃ k ∈ ks, k.toList <:+: cleaned
      · obtain ⟨k, hk, hks⟩ := h2
        rw [if_pos ⟨k, hk, hks⟩, if_pos ⟨k, List.mem_cons_of_mem kw hk, hks⟩]
      · rw [if_neg h2, if_neg ?_]
        rintro ⟨k, hk, hks⟩
        rcases List.mem_cons.1 hk with rfl | hk2
        · exact h hks
        · exact h2 ⟨k, hk2, hks⟩

/-- Claim C9: `detect_recurring_company` assigns `recurring_score` by fixed
priority — 1 on a whole-word match against the known-recurring table, else
4/5 on a whole-word match against the utility table, else 7/10 when some
recurring keyword occurs as a (case-sensitive) substring of the cleaned
name, else 0 — and on "Netflix Inc." it returns score 1 with
`is_recurring_company = 1`. -/
theorem recurring_company_priority_spec :
    (∀ name : String,
        (wordSearch knownRecurringCompanies (clean_company_name name.toList) = true →
          (detect_recurring_company name).recurring_score = 1) ∧
        (wordSearch knownRecurringCompanies (clean_company_name name.toList) = false →
          wordSearch utilityKeywords (clean_company_name name.toList) = true →
          (detect_recurring_company name).recurring_score = 4 / 5) ∧
        (wordSearch knownRecurringCompanies (clean_company_name name.toList) = false →
          wordSearch utilityKeywords (clean_company_name name.toList) = false →
          (∃ kw ∈ knownRecurringCompanies, kw.toList <:+: clean_company_name name.toList) →
          (detect_recurring_company name).recurring_score = 7 / 10) ∧
        (wordSearch knownRecurringCompanies (clean_company_name name.toList) = false →
          wordSearch utilityKeywords (clean_company_name name.toList) = false →
          (∀ kw ∈ knownRecurringCompanies, ¬ kw.toList <:+: clean_company_name name.toList) →
          (detect_recurring_company name).recurring_score = 0)) ∧
      (detect_recurring_company "Netflix Inc.").recurring_score = 1 ∧
      (detect_recurring_company "Netflix Inc.").is_recurring_company = 1 := by
  refine ⟨?_, by decide, by decide⟩
  intro name
  refine ⟨?_, ?_, ?_, ?_⟩
  · intro h1
    simp only [detect_recurring_company]
    rw [h1]
    simp
  · intro h1 h2
    simp only [detect_recurring_company]
    rw [h1, h2]
    simp
  · intro h1 h2 h3
    simp only [detect_recurring_company]
    rw [h1, h2]
    simp only [Bool.false_eq_true, if_false]
    rw [foldl_substring_score, if_pos h3]
    exact max_eq_right (by norm_num)
  · intro h1 h2 h3
    have hno : ¬ ∃ kw ∈ knownRecurringCompanies, kw.toList <:+: clean_company_name name.toList := by
      rintro ⟨k, hk, hks⟩
      exact h3 k hk hks
    simp only [detect_recurring_company]
    rw [h1, h2]
    simp only [Bool.false_eq_true, if_false]
    rw [foldl_substring_score, if_neg hno]

/-- Witness for C9 at "Netflix Inc.", discharging the whole-word-match
hypothesis by evaluation. -/
theorem recurring_company_priority_spec_witness :
    (detect_recurring_company "Netflix Inc.").recurring_score = 1 :=
  (recurring_company_priority_spec.1 "Netflix Inc.").1 (by decide)

lemma foldl_choose_mem (key : ℚ → WithTop ℚ) :
    ∀ (l : List ℚ) (a : ℚ),
      l.foldl (fun best c => if key c < key best then c else best) a ∈ a :: l
  | [], a => by simp
  | x :: xs, a => by
    simp only [List.foldl_cons]
    by_cases h : key x < key a
    · rw [if_pos h]
      rcases List.mem_cons.1 (foldl_choose_mem key xs x) with h2 | h2
      · simp [h2]
      · simp [h2]
    · rw [if_neg h]
      rcases List.mem_cons.1 (foldl_choose_mem key xs a) with h2 | h2
      · simp [h2]
      · simp [h2]

lemma foldl_choose_all_top (key : ℚ → WithTop ℚ) :
    ∀ (l : List ℚ) (a : ℚ), key a = ⊤ → (∀ c ∈ l, key c = ⊤) →
      l.foldl (fun best c => if key c < key best then c else best) a = a
  | [], _, _, _ => rfl
  | x :: xs, a, ha, hl => by
    simp only [List.foldl_cons]
    rw [if_neg (by rw [ha, hl x (by simp)]; exact lt_irrefl ⊤)]
    exact foldl_choose_all_top key xs a ha (fun c hc => hl c (by simp [hc]))

lemma cycleKey_eq_top {med c : ℚ} (h : ¬ |med - c| ≤ 3) : cycleKey med c = ⊤ := by
  rw [cycleKey, if_neg]
  intro hc
  exact h (abs_sub_le_iff.2 ⟨by linarith [hc.2], by linarith [hc.1]⟩)

/-- Claim C10: on a history of at least 2 transactions whose median gap is
not within 3 days of any candidate cycle, `detect_subscription_pattern`
reports `detected_cycle = 7` (the first candidate, because Python `min`
keeps the first element when every key is `inf`); and on any history of at
least 2 transactions the detected cycle is one of 7, 14, 30, 90, 365. -/
theorem detected_cycle_fallback_spec :
    ∀ ts : List Transaction, 2 ≤ ts.length →
      ((∀ c ∈ ([7, 14, 30, 90, 365] : List ℚ),
          ¬ |medianQ ((gapsOf ts).map (fun g => (g : ℚ))) - c| ≤ 3) →
        (detect_subscription_pattern ts).2.detected_cycle = 7) ∧
      (detect_subscription_pattern ts).2.detected_cycle ∈ ([7, 14, 30, 90, 365] : List ℚ) := by
  intro ts hlen
  have hgaps : (gapsOf ts).length = ts.length - 1 := by
    rw [gapsOf, diffs_length, List.length_map, sortByDate_length]
  have hne : ¬ (gapsOf ts).length = 0 := by omega
  have hts : ¬ ts.length < 2 := by omega
  have heq : (detect_subscription_pattern ts).2 = subscriptionCore ts := by
    rw [detect_subscription_pattern, if_neg hts, if_neg hne]
  have hcyc : (subscriptionCore ts).detected_cycle =
      detectedCycle (medianQ ((gapsOf ts).map (fun g => (g : ℚ)))) := rfl
  constructor
  · intro hfar
    rw [heq, hcyc, detectedCycle]
    apply foldl_choose_all_top
    · exact cycleKey_eq_top (hfar 7 (by norm_num))
    · intro c hc
      exact cycleKey_eq_top (hfar c (List.mem_cons_of_mem 7 hc))
  · rw [heq, hcyc, detectedCycle]
    exact foldl_choose_mem _ _ _

/-- First transaction of the 50-day-gap history, 2024-01-01. -/
def cw1 : Transaction :=
  ⟨1, "u1", "vendorW", 100, ⟨2024, 1, 1⟩⟩

/-- Second transaction of the 50-day-gap history, 2024-02-20. -/
def cw2 : Transaction :=
  ⟨2, "u1", "vendorW", 100, ⟨2024, 2, 20⟩⟩

/-- Witness for C10: a two-transaction history with a 50-day gap matches no
candidate cycle, so the detected cycle falls back to 7. -/
theorem detected_cycle_fallback_spec_witness :
    (detect_subscription_pattern [cw1, cw2]).2.detected_cycle = 7 ∧
      (detect_subscription_pattern [cw1, cw2]).2.detected_cycle ∈
        ([7, 14, 30, 90, 365] : List ℚ) := by
  have h := detected_cycle_fallback_spec [cw1, cw2] (by simp)
  refine ⟨h.1 ?_, h.2⟩
  have hg : gapsOf [cw1, cw2] = [50] := by decide
  intro c hc
  rw [hg]
  have hm : medianQ (([50] : List ℤ).map (fun g => (g : ℚ))) = 50 := by
    norm_num [medianQ, List.insertionSort, List.orderedInsert]
  rw [hm]
  fin_cases hc <;> norm_num
